import Mathlib

/-!
Verification of the trade-analytics backend: a shallow embedding of
`app/services/analytics_service.py` (the analytics engine) and
`app/services/trade_parser_service.py` (the trade normalizer), with the
schemas of `app/schemas/trade.py` and `app/schemas/analytics.py`.

Modelling conventions:
* Python floats are modelled as rationals (`ℚ`); the trade profits and
  prices handled by this program are exact decimals, and no claim under
  scrutiny depends on binary floating point rounding.
* `datetime` values are modelled as natural numbers counting minutes, with
  the calendar day `t / 1440` and (as a grouping key) the month `t / 44640`
  (months flattened to 31 days: the encoding used by the timestamp parser
  below is injective and order-preserving, which is all the claims use).
* pandas `DataFrame` rows are lists of `Value`s (a cell is NaN, a number,
  or a string); a missing cell reads as NaN, as in pandas.
* Python exceptions surface as `Except`/`Option` results.
-/

namespace TradingBot

/-- `app/schemas/trade.py`: one closed trade.  Field defaults are only a
construction convenience for concrete examples; the Python model has no
defaults for these fields. -/
structure Trade where
  id : Nat := 0
  open_time : Nat := 0
  close_time : Nat := 0
  symbol : String := "EURUSD"
  order_type : String := "BUY"
  volume : ℚ := 1
  open_price : ℚ := 1
  close_price : ℚ := 1
  profit_usd : ℚ := 0
  profit_pct : ℚ := 0
  duration : Int := 0
  status : String := ""
deriving DecidableEq, Repr

/-- Per-symbol entry of `symbol_stats` (analytics_service.py lines 76-81). -/
structure SymbolStat where
  trades : Nat
  profit : ℚ
  win_rate : ℚ
  avg_profit : ℚ
deriving DecidableEq, Repr

/-- `app/schemas/analytics.py` `DailyStats`; the date string is modelled by
the day index. -/
structure DailyStats where
  date : Nat
  trades : Nat
  profit : ℚ
  win_rate : ℚ
  max_loss : ℚ
deriving DecidableEq, Repr

/-- `app/schemas/analytics.py` `MonthlyStats`; month and day strings are
modelled by their indices. -/
structure MonthlyStats where
  month : Nat
  trades : Nat
  profit : ℚ
  win_rate : ℚ
  best_day : Nat
  worst_day : Nat
deriving DecidableEq, Repr

/-- The fields of `app/schemas/analytics.py` `Analytics` that the claims
under scrutiny are about (the streak, best-day/hour, distribution and
period-metadata fields play no part in any claim and are omitted). -/
structure Analytics where
  total_trades : Nat
  winning_trades : Nat
  losing_trades : Nat
  break_even : Nat
  total_profit : ℚ
  average_profit : ℚ
  win_rate : ℚ
  profit_factor : ℚ
  payoff_ratio : ℚ
  max_drawdown : ℚ
  current_drawdown : ℚ
  symbol_stats : List (String × SymbolStat)
  equity_curve : List ℚ
  equity_dates : List Nat
  daily_stats : List DailyStats
  monthly_stats : List MonthlyStats
deriving DecidableEq, Repr

/-- Order used by `df.sort_values('open_time')` (line 20): by open time
only; there is no secondary key in the source. -/
def ordOT (a b : Trade) : Prop := a.open_time ≤ b.open_time

instance : DecidableRel ordOT := fun a b => inferInstanceAs (Decidable (a.open_time ≤ b.open_time))

instance : IsTotal Trade ordOT := ⟨fun a b => Nat.le_total a.open_time b.open_time⟩

instance : IsTrans Trade ordOT := ⟨fun _ _ _ hab hbc => Nat.le_trans hab hbc⟩

/-- `df = df.sort_values('open_time')` (line 20), modelled as a stable sort
by `open_time`: rows with equal `open_time` keep their input order (numpy's
sort applied to the 2-element ties exercised below also keeps input
order). -/
def sortTrades (l : List Trade) : List Trade := l.insertionSort ordOT

/-- The `profit_usd` column of a frame. -/
def profitsOf (l : List Trade) : List ℚ := l.map Trade.profit_usd

/-- `df[df['profit_usd'] > 0]` (lines 24, 32, 37). -/
def winsOf (l : List Trade) : List Trade := l.filter (fun t => 0 < t.profit_usd)

/-- `df[df['profit_usd'] < 0]` (lines 25, 33, 38). -/
def lossesOf (l : List Trade) : List Trade := l.filter (fun t => t.profit_usd < 0)

/-- `df[df['profit_usd'] == 0]` (line 26). -/
def breakEvensOf (l : List Trade) : List Trade := l.filter (fun t => t.profit_usd = 0)

/-- `series.cumsum()` with running total `acc`. -/
def cumsumFrom (acc : ℚ) : List ℚ → List ℚ
  | [] => []
  | x :: xs => (acc + x) :: cumsumFrom (acc + x) xs

/-- `df['profit_usd'].cumsum()` (line 42). -/
def cumsum (l : List ℚ) : List ℚ := cumsumFrom 0 l

/-- `series.cummax()` continued below a running maximum `m`. -/
def cummaxFrom (m : ℚ) : List ℚ → List ℚ
  | [] => []
  | x :: xs => max m x :: cummaxFrom (max m x) xs

/-- `cumsum.cummax()` (line 43). -/
def cummax : List ℚ → List ℚ
  | [] => []
  | x :: xs => x :: cummaxFrom x xs

/-- `series.min()` of a nonempty series (the `0` for `[]` is never the
value the code reads: every use is guarded by nonemptiness). -/
def minOf : List ℚ → ℚ
  | [] => 0
  | x :: xs => xs.foldl min x

/-- The cumulative equity curve of a (sorted) frame (lines 42, 84). -/
def equityOf (l : List Trade) : List ℚ := cumsum (profitsOf l)

/-- `drawdown = cumsum - running_max` (line 44). -/
def drawdownOf (l : List Trade) : List ℚ :=
  List.zipWith (fun a b => a - b) (equityOf l) (cummax (equityOf l))

/-- `df['symbol'].unique()` (line 74); only the key set matters to the
claims, not the order pandas lists it in. -/
def uniqueSymbols (l : List Trade) : List String := (l.map Trade.symbol).dedup

/-- `df[df['symbol'] == symbol]` (line 75). -/
def tradesFor (l : List Trade) (sym : String) : List Trade :=
  l.filter (fun t => t.symbol = sym)

/-- The `symbol_stats` dict (lines 73-81). -/
def symbolStats (l : List Trade) : List (String × SymbolStat) :=
  (uniqueSymbols l).map (fun sym =>
    let g := tradesFor l sym
    (sym, { trades := g.length
            profit := (profitsOf g).sum
            win_rate := if 0 < g.length then ((winsOf g).length : ℚ) / (g.length : ℚ) * 100 else 0
            avg_profit := (profitsOf g).sum / (g.length : ℚ) }))

/-- `df['open_time'].dt.date` as a grouping key. -/
def dateKey (t : Trade) : Nat := t.open_time / 1440

/-- `df['open_time'].dt.to_period('M')` as a grouping key. -/
def monthKey (t : Trade) : Nat := t.open_time / 44640

/-- pandas `groupby` iterates groups in ascending key order. -/
def sortedKeys (ks : List Nat) : List Nat := ks.dedup.insertionSort (fun a b => a ≤ b)

/-- The distinct calendar days of a frame, ascending (line 89). -/
def dailyGroups (l : List Trade) : List Nat := sortedKeys (l.map dateKey)

/-- The daily stats series (lines 88-96). -/
def dailyStats (l : List Trade) : List DailyStats :=
  (dailyGroups l).map (fun d =>
    let g := l.filter (fun t => dateKey t = d)
    { date := d
      trades := g.length
      profit := (profitsOf g).sum
      win_rate := if 0 < g.length then ((winsOf g).length : ℚ) / (g.length : ℚ) * 100 else 0
      max_loss := minOf (profitsOf g) })

/-- `series.idxmax()`: first key attaining the maximum. -/
def idxmaxQ : List (Nat × ℚ) → Nat
  | [] => 0
  | p :: ps => (ps.foldl (fun acc q => if acc.2 < q.2 then q else acc) p).1

/-- `series.idxmin()`: first key attaining the minimum. -/
def idxminQ : List (Nat × ℚ) → Nat
  | [] => 0
  | p :: ps => (ps.foldl (fun acc q => if q.2 < acc.2 then q else acc) p).1

/-- `group.groupby(group['open_time'].dt.date)['profit_usd'].sum()` (line 102). -/
def dailyProfitByDate (g : List Trade) : List (Nat × ℚ) :=
  (dailyGroups g).map (fun d => (d, (profitsOf (g.filter (fun t => dateKey t = d))).sum))

/-- The monthly stats series (lines 99-110). -/
def monthlyStats (l : List Trade) : List MonthlyStats :=
  (sortedKeys (l.map monthKey)).map (fun m =>
    let g := l.filter (fun t => monthKey t = m)
    let byDate := dailyProfitByDate g
    { month := m
      trades := g.length
      profit := (profitsOf g).sum
      win_rate := if 0 < g.length then ((winsOf g).length : ℚ) / (g.length : ℚ) * 100 else 0
      best_day := idxmaxQ byDate
      worst_day := idxminQ byDate })

/-- The body of `AnalyticsService.calculate_all_analytics` past line 20:
all metrics computed from the sorted frame `s`.  Division guards mirror
the source; `ℚ` division by zero (which yields `0`) is only ever reached
where pandas would produce a NaN the code immediately overwrites or
never reads on the nonempty inputs this body is reached with. -/
def buildAnalytics (trades : List Trade) : Analytics :=
  let s := sortTrades trades
  let total := s.length
  let winning := (winsOf s).length
  let losing := (lossesOf s).length
  let gains := (profitsOf (winsOf s)).sum
  let losses := |(profitsOf (lossesOf s)).sum|
  let avgWin : ℚ := if 0 < winning then (profitsOf (winsOf s)).sum / (winning : ℚ) else 0
  let avgLoss : ℚ := if 0 < losing then |(profitsOf (lossesOf s)).sum / (losing : ℚ)| else 1
  let dd := drawdownOf s
  { total_trades := total
    winning_trades := winning
    losing_trades := losing
    break_even := (breakEvensOf s).length
    total_profit := (profitsOf s).sum
    average_profit := (profitsOf s).sum / (total : ℚ)
    win_rate := if 0 < total then (winning : ℚ) / (total : ℚ) * 100 else 0
    profit_factor := if 0 < losses then gains / losses else 0
    payoff_ratio := if 0 < avgLoss then avgWin / avgLoss else 0
    max_drawdown := minOf dd
    current_drawdown := dd.getLast?.getD 0
    symbol_stats := symbolStats s
    equity_curve := equityOf s
    equity_dates := s.map Trade.open_time
    daily_stats := dailyStats s
    monthly_stats := monthlyStats s }

/-- `AnalyticsService.calculate_all_analytics` (lines 14-158).  On an empty
trade list, `pd.DataFrame([])` is a frame with no columns at all, so the
very first column access `df['open_time']` at line 18 raises `KeyError`;
on a nonempty list every column exists and no later step raises (every
division is a numpy float division, which yields inf/NaN instead of
raising, and every `idxmax`/`iloc` access is guarded by `len > 0`). -/
def calculate_all_analytics (trades : List Trade) : Except String Analytics :=
  if trades.isEmpty then .error "KeyError: open_time"
  else .ok (buildAnalytics trades)

/-! ## Trade normalizer: `app/services/trade_parser_service.py`

`load_trades_from_file` is modelled past the point where pandas has read
the file into a frame (header detection and `read_csv`/`read_excel`
produce the `Table` below), which is where the claims about it start:
column aliasing, the required-column check, and the per-row loop. -/

/-- A cell of the loaded frame: NaN (pandas reads an empty cell as NaN),
a number, or a string. -/
inductive Value where
  | na : Value
  | num (q : ℚ) : Value
  | str (s : String) : Value
deriving DecidableEq, Repr

/-- Python `str.lower()` (character-wise, as for the ASCII headers and
order types this program compares). -/
def pyLower (s : String) : String := String.mk (s.data.map Char.toLower)

/-- Python `str.upper()`. -/
def pyUpper (s : String) : String := String.mk (s.data.map Char.toUpper)

/-- Python `str.strip()`. -/
def pyStrip (s : String) : String :=
  String.mk (((s.data.dropWhile Char.isWhitespace).reverse.dropWhile Char.isWhitespace).reverse)

/-- `str.replace('.', '-')`: the dotted-date fixup of lines 108-109. -/
def replaceDot (s : String) : String :=
  String.mk (s.data.map (fun c => if c = '.' then '-' else c))

/-- `pd.isna` on a cell. -/
def Value.isna : Value → Bool
  | .na => true
  | _ => false

/-- Python `str()` of a cell.  A float's exact rendering is irrelevant to
every claim (it is never `buy`/`sell`); the numerator stands in for it. -/
def Value.pyStr : Value → String
  | .na => "nan"
  | .num q => toString q.num
  | .str s => s

/-- Python `float()` of a decimal string: accepts an optional minus sign,
digits, and one fractional part.  (Scientific notation and `inf`/`nan`
spellings are outside the model; no claim depends on which strings
`float()` accepts.) -/
def parseDecimal (s : String) : Option ℚ :=
  let core : String → Option ℚ := fun t =>
    match t.splitOn "." with
    | [ip] => ip.toNat?.map (fun n => (n : ℚ))
    | [ip, fp] => do
        let n ← ip.toNat?
        let f ← fp.toNat?
        some ((n : ℚ) + (f : ℚ) / ((10 : ℚ) ^ fp.length))
    | _ => none
  match s.data with
  | '-' :: rest => (core (String.mk rest)).map (fun q => -q)
  | _ => core s

/-- Python `float()` of a cell (lines 101, 122-125).  `float(NaN)` in
Python returns NaN without raising; NaN has no rational value, so an NA
cell is modelled as numeric-coercion failure — this classification is the
one modelling choice that diverges from CPython, and no claim's truth
turns on it. -/
def Value.toRat : Value → Option ℚ
  | .num q => some q
  | .str s => parseDecimal s
  | .na => none

/-- `"YYYY-MM-DD"` to a day index (months flattened to 31 days: injective
and order-preserving in (year, month, day)). -/
def parseDate (s : String) : Option Nat :=
  match s.splitOn "-" with
  | [y, m, d] => do
      let yn ← y.toNat?
      let mn ← m.toNat?
      let dn ← d.toNat?
      if 1 ≤ mn ∧ mn ≤ 12 ∧ 1 ≤ dn ∧ dn ≤ 31 then
        some ((yn * 12 + (mn - 1)) * 31 + (dn - 1))
      else none
  | _ => none

/-- `"HH:MM"` or `"HH:MM:SS"` to minutes (seconds are below the model's
resolution, as they are below `duration`'s in the source). -/
def parseHM (s : String) : Option Nat :=
  match s.splitOn ":" with
  | [h, m] => do
      let hn ← h.toNat?
      let mn ← m.toNat?
      if hn ≤ 23 ∧ mn ≤ 59 then some (hn * 60 + mn) else none
  | [h, m, sec] => do
      let hn ← h.toNat?
      let mn ← m.toNat?
      let _ ← sec.toNat?
      if hn ≤ 23 ∧ mn ≤ 59 then some (hn * 60 + mn) else none
  | _ => none

/-- A dashed datetime string to minutes. -/
def parseDateTime (s : String) : Option Nat :=
  match s.splitOn " " with
  | [d] => do
      let dd ← parseDate d
      some (dd * 1440)
  | [d, t] => do
      let dd ← parseDate d
      let mm ← parseHM t
      some (dd * 1440 + mm)
  | _ => none

/-- The timestamp handling of lines 106-114 collapsed with the `Trade`
validation of line 116: `pd.to_datetime(str(v).replace('.', '-'))` is
tried and, when it raises, the raw cell falls back into the pydantic
`datetime` field, so a row survives exactly when the cell is acceptable as
a datetime one way or the other — numbers pass as epoch stamps, dotted or
dashed datetime strings parse, NaN is rejected by pydantic. -/
def parseTime : Value → Option Nat
  | .na => none
  | .num q => if q.den = 1 ∧ 0 ≤ q.num then some q.num.toNat else none
  | .str s => parseDateTime (replaceDot s)

/-- The loaded frame: its header (column names) and its rows. -/
structure Table where
  columns : List String
  rows : List (List Value)
deriving Repr

/-- The `column_mapping_duplicates` rename table (lines 55-77): pandas has
already suffixed duplicate headers (`Time.1`, `Price.1`). -/
def renameColumn (c : String) : String :=
  if c = "Time" then "open_time"
  else if c = "Time.1" then "close_time"
  else if c = "Price" then "open_price"
  else if c = "Price.1" then "close_price"
  else if c = "Symbol" then "symbol"
  else if c = "Type" then "order_type"
  else if c = "Volume" then "volume"
  else if c = "Profit" then "profit_usd"
  else if c = "Commission" then "commission"
  else if c = "Swap" then "swap"
  else if c = "S / L" then "sl"
  else if c = "T / P" then "tp"
  else if c = "Comment" then "comment"
  else if c = "Símbolo" then "symbol"
  else if c = "Tipo" then "order_type"
  else if c = "Volumen" then "volume"
  else if c = "Ganancias" then "profit_usd"
  else if c = "Comisión" then "commission"
  else if c = "Comente" then "comment"
  else c

/-- `df.columns` after `df.rename` (line 77). -/
def renamedCols (tbl : Table) : List String := tbl.columns.map renameColumn

/-- `required_columns` (lines 82-83). -/
def required_columns : List String :=
  ["open_time", "close_time", "symbol", "order_type", "volume",
   "open_price", "close_price", "profit_usd"]

/-- `missing_columns` (line 84): the required columns not present, in the
required list's order. -/
def missingCols (tbl : Table) : List String :=
  required_columns.filter (fun c => !((renamedCols tbl).contains c))

/-- `ValueError`s the loader raises: unsupported extension (line 48) or
missing required columns (lines 86-90, reporting both the missing and the
available columns). -/
inductive ParseError where
  | unsupportedFormat (ext : String) : ParseError
  | missingColumns (missing : List String) (found : List String) : ParseError
deriving DecidableEq, Repr

/-- `row['c']`: a cell by column name (first occurrence; duplicates were
renamed apart before any access).  Reads past the row's end as NA. -/
def getCol (cols : List String) (row : List Value) (c : String) : Value :=
  match cols.findIdx? (fun c2 => c2 = c) with
  | some i => row.getD i Value.na
  | none => Value.na

/-- The body of the row loop (lines 93-135): `none` exactly when the row
is skipped — by the non-trade filter of line 96 (NA symbol, or an order
type that is not `buy`/`sell` case-insensitively) or because a field
coercion raises (lines 101-131, swallowed by the per-row `except`). -/
def rowToTrade (cols : List String) (idx : Nat) (row : List Value) : Option Trade :=
  if (getCol cols row "symbol").isna then none
  else if !(pyLower (getCol cols row "order_type").pyStr = "buy"
            ∨ pyLower (getCol cols row "order_type").pyStr = "sell" : Bool) then none
  else
    match (getCol cols row "volume").toRat, (getCol cols row "open_price").toRat,
          (getCol cols row "close_price").toRat, (getCol cols row "profit_usd").toRat,
          parseTime (getCol cols row "open_time"), parseTime (getCol cols row "close_time") with
    | some vol, some op, some cp, some pf, some ot, some ct =>
        some { id := idx
               open_time := ot
               close_time := ct
               symbol := pyStrip (getCol cols row "symbol").pyStr
               order_type := pyUpper (getCol cols row "order_type").pyStr
               volume := vol
               open_price := op
               close_price := cp
               profit_usd := pf
               profit_pct := if |op * vol * 100| = 0 then 0 else pf / |op * vol * 100| * 100
               duration := (ct : Int) - (ot : Int)
               status := if 0 < pf then "GANADOR" else if pf < 0 then "PERDEDOR" else "BREAK_EVEN" }
    | _, _, _, _, _, _ => none

/-- `df.iterrows()` indices: the frame's row positions starting at `n`. -/
def enumF (n : Nat) : List (List Value) → List (Nat × List Value)
  | [] => []
  | r :: rs => (n, r) :: enumF (n + 1) rs

/-- The full row loop: kept rows in order, each with its original frame
index. -/
def parseRows (cols : List String) (rows : List (List Value)) : List Trade :=
  (enumF 0 rows).filterMap (fun p => rowToTrade cols p.1 p.2)

/-- The row-survival condition, stated directly: a non-NA symbol, a
BUY/SELL order type (case-insensitive), and coercible numeric and
timestamp fields. -/
def keptRow (cols : List String) (row : List Value) : Bool :=
  !(getCol cols row "symbol").isna
  && (pyLower (getCol cols row "order_type").pyStr = "buy"
      ∨ pyLower (getCol cols row "order_type").pyStr = "sell" : Bool)
  && (getCol cols row "volume").toRat.isSome
  && (getCol cols row "open_price").toRat.isSome
  && (getCol cols row "close_price").toRat.isSome
  && (getCol cols row "profit_usd").toRat.isSome
  && (parseTime (getCol cols row "open_time")).isSome
  && (parseTime (getCol cols row "close_time")).isSome

/-- `TradeParserService.load_trades_from_file` (lines 16-142) from the
loaded frame on: extension dispatch (line 23-48), column aliasing
(line 77), required-column check (lines 82-90), row loop (lines 92-135). -/
def load_trades_from_file (ext : String) (tbl : Table) : Except ParseError (List Trade) :=
  if ext = ".csv" ∨ ext = ".xlsx" ∨ ext = ".xls" then
    if (missingCols tbl).isEmpty then .ok (parseRows (renamedCols tbl) tbl.rows)
    else .error (.missingColumns (missingCols tbl) (renamedCols tbl))
  else .error (.unsupportedFormat ext)

/-! ## Concrete inputs used by claim theorems -/

/-- The five trades of the spec's basic win/loss scenario: profits
[100, -50, 200, -50, 0] at distinct ascending open times. -/
def c2trades : List Trade :=
  [{ id := 0, open_time := 1, profit_usd := 100 },
   { id := 1, open_time := 2, profit_usd := -50 },
   { id := 2, open_time := 3, profit_usd := 200 },
   { id := 3, open_time := 4, profit_usd := -50 },
   { id := 4, open_time := 5, profit_usd := 0 }]

/-- Two trades sharing an open time (the tie the sort must break). -/
def c5tieA : Trade := { id := 0, open_time := 10, profit_usd := 100 }

/-- See `c5tieA`. -/
def c5tieB : Trade := { id := 1, open_time := 10, profit_usd := -50 }

/-- Two trades with distinct open times, for the determinism witness. -/
def c5wA : Trade := { id := 0, open_time := 1, profit_usd := 100 }

/-- See `c5wA`. -/
def c5wB : Trade := { id := 1, open_time := 2, profit_usd := -50 }

/-- A single winning trade, for the no-losses witness. -/
def c6w : Trade := { id := 0, open_time := 1, profit_usd := 7 }

/-- A frame with canonical headers: one BUY row, then a balance row (NA
symbol, order type `balance`), used by the C8 witness. -/
def c8tbl : Table :=
  { columns := ["open_time", "close_time", "symbol", "order_type", "volume",
                "open_price", "close_price", "profit_usd"]
    rows := [[Value.num 1, Value.num 2, Value.str "EURUSD", Value.str "buy",
              Value.num 1, Value.num 1, Value.num 2, Value.num 100],
             [Value.na, Value.na, Value.na, Value.str "balance",
              Value.na, Value.na, Value.na, Value.num 0]] }

/-- A frame with a non-trade row *between* two trade rows: the surviving
trades take frame indices 0 and 2. -/
def c9tbl : Table :=
  { columns := ["open_time", "close_time", "symbol", "order_type", "volume",
                "open_price", "close_price", "profit_usd"]
    rows := [[Value.num 1, Value.num 2, Value.str "EURUSD", Value.str "buy",
              Value.num 1, Value.num 1, Value.num 2, Value.num 100],
             [Value.na, Value.na, Value.na, Value.str "balance",
              Value.na, Value.na, Value.na, Value.num 0],
             [Value.num 3, Value.num 4, Value.str "GBPUSD", Value.str "SELL",
              Value.num 1, Value.num 1, Value.num 2, Value.num (-50)]] }

/-- A single trade for the symbol-stats witness. -/
def c10w : Trade := { id := 0, open_time := 2, profit_usd := 3, symbol := "GBPUSD" }

/-! ## Helper lemmas -/

theorem length_cumsumFrom (acc : ℚ) (l : List ℚ) : (cumsumFrom acc l).length = l.length := by
  induction l generalizing acc with
  | nil => rfl
  | cons x xs ih => simp [cumsumFrom, ih]

theorem length_cumsum (l : List ℚ) : (cumsum l).length = l.length := length_cumsumFrom 0 l

theorem length_cummaxFrom (m : ℚ) (l : List ℚ) : (cummaxFrom m l).length = l.length := by
  induction l generalizing m with
  | nil => rfl
  | cons x xs ih => simp [cummaxFrom, ih]

theorem length_cummax (l : List ℚ) : (cummax l).length = l.length := by
  cases l with
  | nil => rfl
  | cons x xs => simp [cummax, length_cummaxFrom]

theorem length_drawdownOf (l : List Trade) : (drawdownOf l).length = l.length := by
  simp [drawdownOf, equityOf, List.length_zipWith, length_cumsum, length_cummax, profitsOf]

theorem length_sortTrades (l : List Trade) : (sortTrades l).length = l.length :=
  (l.perm_insertionSort ordOT).length_eq

theorem mem_sortTrades {l : List Trade} {t : Trade} : t ∈ sortTrades l ↔ t ∈ l :=
  List.mem_insertionSort ordOT

/-- Every entry of `series - series.cummax()` continued below `m` is ≤ 0. -/
theorem zip_cummaxFrom_nonpos (m : ℚ) (l : List ℚ) :
    ∀ x ∈ List.zipWith (fun a b => a - b) l (cummaxFrom m l), x ≤ 0 := by
  induction l generalizing m with
  | nil => simp [cummaxFrom]
  | cons a t ih =>
    intro x hx
    simp only [cummaxFrom, List.zipWith_cons_cons, List.mem_cons] at hx
    rcases hx with h | h
    · exact h ▸ sub_nonpos.mpr (le_max_right m a)
    · exact ih (max m a) x h

/-- Every entry of `series - series.cummax()` is ≤ 0. -/
theorem zip_cummax_nonpos (l : List ℚ) :
    ∀ x ∈ List.zipWith (fun a b => a - b) l (cummax l), x ≤ 0 := by
  cases l with
  | nil => simp [cummax]
  | cons a t =>
    intro x hx
    simp only [cummax, List.zipWith_cons_cons, List.mem_cons] at hx
    rcases hx with h | h
    · simp [h]
    · exact zip_cummaxFrom_nonpos a t x h

theorem foldl_min_mem (xs : List ℚ) (a : ℚ) : xs.foldl min a ∈ a :: xs := by
  induction xs generalizing a with
  | nil => simp [List.foldl_nil]
  | cons x t ih =>
    have h := ih (min a x)
    rw [List.foldl_cons]
    rcases List.mem_cons.1 h with h1 | h1
    · rcases min_choice a x with hc | hc
      · exact List.mem_cons.2 (Or.inl (h1.trans hc))
      · exact List.mem_cons.2 (Or.inr (List.mem_cons.2 (Or.inl (h1.trans hc))))
    · exact List.mem_cons.2 (Or.inr (List.mem_cons.2 (Or.inr h1)))

theorem foldl_min_le (xs : List ℚ) (a : ℚ) : ∀ x ∈ a :: xs, xs.foldl min a ≤ x := by
  induction xs generalizing a with
  | nil => intro x hx; simp at hx; simp [hx]
  | cons y t ih =>
    intro x hx
    rw [List.foldl_cons]
    have hmin : t.foldl min (min a y) ≤ min a y :=
      ih (min a y) (min a y) (List.mem_cons_self _ _)
    rcases List.mem_cons.1 hx with h1 | h1
    · rw [h1]; exact hmin.trans (min_le_left a y)
    rcases List.mem_cons.1 h1 with h2 | h2
    · rw [h2]; exact hmin.trans (min_le_right a y)
    · exact ih (min a y) x (List.mem_cons_of_mem _ h2)

theorem minOf_mem {l : List ℚ} (h : l ≠ []) : minOf l ∈ l := by
  cases l with
  | nil => exact absurd rfl h
  | cons x xs => exact foldl_min_mem xs x

theorem minOf_le {l : List ℚ} : ∀ x ∈ l, minOf l ≤ x := by
  cases l with
  | nil => simp
  | cons x xs => exact foldl_min_le xs x

theorem getLast?_of_ne_nil {α : Type} {l : List α} (h : l ≠ []) (d : α) :
    l.getLast? = some (l.getLast?.getD d) := by
  cases hc : l.getLast? with
  | none => exact absurd (List.getLast?_eq_none_iff.1 hc) h
  | some x => rfl

theorem filter_partition (l : List Trade) :
    (winsOf l).length + (lossesOf l).length + (breakEvensOf l).length = l.length := by
  induction l with
  | nil => rfl
  | cons t rest ih =>
    rcases lt_trichotomy t.profit_usd 0 with h | h | h
    · have hw : winsOf (t :: rest) = winsOf rest := by
        simp [winsOf, List.filter_cons, not_lt.2 h.le]
      have hl : lossesOf (t :: rest) = t :: lossesOf rest := by
        simp [lossesOf, List.filter_cons, h]
      have hb : breakEvensOf (t :: rest) = breakEvensOf rest := by
        simp [breakEvensOf, List.filter_cons, h.ne]
      rw [hw, hl, hb, List.length_cons, List.length_cons]
      omega
    · have hw : winsOf (t :: rest) = winsOf rest := by
        simp [winsOf, List.filter_cons, h]
      have hl : lossesOf (t :: rest) = lossesOf rest := by
        simp [lossesOf, List.filter_cons, h]
      have hb : breakEvensOf (t :: rest) = t :: breakEvensOf rest := by
        simp [breakEvensOf, List.filter_cons, h]
      rw [hw, hl, hb, List.length_cons, List.length_cons]
      omega
    · have hw : winsOf (t :: rest) = t :: winsOf rest := by
        simp [winsOf, List.filter_cons, h]
      have hl : lossesOf (t :: rest) = lossesOf rest := by
        simp [lossesOf, List.filter_cons, not_lt.2 h.le]
      have hb : breakEvensOf (t :: rest) = breakEvensOf rest := by
        simp [breakEvensOf, List.filter_cons, h.ne']
      rw [hw, hl, hb, List.length_cons, List.length_cons]
      omega

/-! Projection lemmas for `buildAnalytics` (each is definitional). -/

theorem buildAnalytics_total (l : List Trade) :
    (buildAnalytics l).total_trades = (sortTrades l).length := rfl

theorem buildAnalytics_winning (l : List Trade) :
    (buildAnalytics l).winning_trades = (winsOf (sortTrades l)).length := rfl

theorem buildAnalytics_losing (l : List Trade) :
    (buildAnalytics l).losing_trades = (lossesOf (sortTrades l)).length := rfl

theorem buildAnalytics_breakEven (l : List Trade) :
    (buildAnalytics l).break_even = (breakEvensOf (sortTrades l)).length := rfl

theorem buildAnalytics_total_profit (l : List Trade) :
    (buildAnalytics l).total_profit = (profitsOf (sortTrades l)).sum := rfl

theorem buildAnalytics_max_drawdown (l : List Trade) :
    (buildAnalytics l).max_drawdown = minOf (drawdownOf (sortTrades l)) := rfl

theorem buildAnalytics_current_drawdown (l : List Trade) :
    (buildAnalytics l).current_drawdown = (drawdownOf (sortTrades l)).getLast?.getD 0 := rfl

theorem buildAnalytics_win_rate (l : List Trade) :
    (buildAnalytics l).win_rate =
      (if 0 < (sortTrades l).length then
        ((winsOf (sortTrades l)).length : ℚ) / ((sortTrades l).length : ℚ) * 100
      else 0) := rfl

theorem buildAnalytics_profit_factor (l : List Trade) :
    (buildAnalytics l).profit_factor =
      (if 0 < |(profitsOf (lossesOf (sortTrades l))).sum| then
        (profitsOf (winsOf (sortTrades l))).sum / |(profitsOf (lossesOf (sortTrades l))).sum|
      else 0) := rfl

theorem buildAnalytics_payoff_ratio (l : List Trade) :
    (buildAnalytics l).payoff_ratio =
      (if 0 < (if 0 < (lossesOf (sortTrades l)).length then
            |(profitsOf (lossesOf (sortTrades l))).sum / ((lossesOf (sortTrades l)).length : ℚ)|
          else 1)
       then (if 0 < (winsOf (sortTrades l)).length then
            (profitsOf (winsOf (sortTrades l))).sum / ((winsOf (sortTrades l)).length : ℚ)
          else 0) /
         (if 0 < (lossesOf (sortTrades l)).length then
            |(profitsOf (lossesOf (sortTrades l))).sum / ((lossesOf (sortTrades l)).length : ℚ)|
          else 1)
       else 0) := rfl

theorem buildAnalytics_symbol_stats (l : List Trade) :
    (buildAnalytics l).symbol_stats = symbolStats (sortTrades l) := rfl

theorem buildAnalytics_equity_curve (l : List Trade) :
    (buildAnalytics l).equity_curve = equityOf (sortTrades l) := rfl

theorem buildAnalytics_equity_dates (l : List Trade) :
    (buildAnalytics l).equity_dates = (sortTrades l).map Trade.open_time := rfl

theorem buildAnalytics_daily_stats (l : List Trade) :
    (buildAnalytics l).daily_stats = dailyStats (sortTrades l) := rfl

theorem buildAnalytics_monthly_stats (l : List Trade) :
    (buildAnalytics l).monthly_stats = monthlyStats (sortTrades l) := rfl

theorem sorted_sortTrades (l : List Trade) : (sortTrades l).Sorted ordOT :=
  List.sorted_insertionSort ordOT l

/-- Two sorted permutations of the same trades with pairwise-distinct open
times are equal. -/
theorem eq_of_perm_sorted_nodup_times :
    ∀ l1 l2 : List Trade, l1.Perm l2 → l1.Sorted ordOT → l2.Sorted ordOT →
      (l1.map Trade.open_time).Nodup → l1 = l2 := by
  intro l1
  induction l1 with
  | nil =>
    intro l2 hp _ _ _
    exact (hp.symm.eq_nil).symm
  | cons a t ih =>
    intro l2 hp hs1 hs2 hnd
    cases l2 with
    | nil => exact absurd (List.perm_nil.1 hp) (List.cons_ne_nil a t)
    | cons b u =>
      have hndc : a.open_time ∉ t.map Trade.open_time ∧ (t.map Trade.open_time).Nodup :=
        List.nodup_cons.1 (by simpa using hnd)
      have hab : a = b := by
        have ha2 : a ∈ b :: u := hp.mem_iff.1 (List.mem_cons_self a t)
        have hb1 : b ∈ a :: t := hp.symm.mem_iff.1 (List.mem_cons_self b u)
        rcases List.mem_cons.1 ha2 with h | hau
        · exact h
        rcases List.mem_cons.1 hb1 with h | hbt
        · exact h.symm
        have h1 : ordOT a b := List.rel_of_sorted_cons hs1 b hbt
        have h2 : ordOT b a := List.rel_of_sorted_cons hs2 a hau
        have heq : a.open_time = b.open_time := le_antisymm h1 h2
        have hmem : a.open_time ∈ t.map Trade.open_time :=
          heq ▸ List.mem_map_of_mem Trade.open_time hbt
        exact absurd hmem hndc.1
      subst hab
      rw [ih u hp.cons_inv hs1.of_cons hs2.of_cons hndc.2]

theorem mem_missingCols {tbl : Table} {c : String} :
    c ∈ missingCols tbl ↔ c ∈ required_columns ∧ c ∉ renamedCols tbl := by
  simp [missingCols, List.mem_filter]

theorem missingCols_isEmpty_iff {tbl : Table} :
    (missingCols tbl).isEmpty = true ↔ ∀ c ∈ required_columns, c ∈ renamedCols tbl := by
  rw [List.isEmpty_iff]
  simp [missingCols, List.filter_eq_nil_iff]

/-- The id a kept row is given is its frame index. -/
theorem id_of_rowToTrade {cols : List String} {idx : Nat} {row : List Value} {t : Trade}
    (h : rowToTrade cols idx row = some t) : t.id = idx := by
  unfold rowToTrade at h
  split at h
  · exact Option.noConfusion h
  · split at h
    · exact Option.noConfusion h
    · split at h
      all_goals try exact Option.noConfusion h
      obtain rfl := Option.some.inj h
      rfl

/-- A row survives the loop exactly when it is a coercible BUY/SELL row. -/
theorem rowToTrade_isSome (cols : List String) (idx : Nat) (row : List Value) :
    (rowToTrade cols idx row).isSome = keptRow cols row := by
  unfold rowToTrade keptRow
  by_cases h1 : (getCol cols row "symbol").isna = true
  · simp [h1]
  · by_cases h2 : (pyLower (getCol cols row "order_type").pyStr = "buy"
        ∨ pyLower (getCol cols row "order_type").pyStr = "sell")
    · rcases hv : (getCol cols row "volume").toRat with _ | v <;>
      rcases hop : (getCol cols row "open_price").toRat with _ | op <;>
      rcases hcp : (getCol cols row "close_price").toRat with _ | cp <;>
      rcases hpf : (getCol cols row "profit_usd").toRat with _ | pf <;>
      rcases hot : parseTime (getCol cols row "open_time") with _ | ot <;>
      rcases hct : parseTime (getCol cols row "close_time") with _ | ct <;>
      simp [h1, h2, hv, hop, hcp, hpf, hot, hct]
    · simp [h1, h2]

/-- The kept rows of `enumF n rows`: ids strictly increase, are ≥ n, and
each kept trade points back at its source row. -/
theorem enumF_filterMap_ids (cols : List String) :
    ∀ (rows : List (List Value)) (n : Nat),
      ((enumF n rows).filterMap (fun p => rowToTrade cols p.1 p.2)).Pairwise
          (fun a b => a.id < b.id) ∧
      (∀ t ∈ (enumF n rows).filterMap (fun p => rowToTrade cols p.1 p.2), n ≤ t.id) ∧
      (∀ t ∈ (enumF n rows).filterMap (fun p => rowToTrade cols p.1 p.2),
        ∃ row, (t.id, row) ∈ enumF n rows ∧ rowToTrade cols t.id row = some t) := by
  intro rows
  induction rows with
  | nil => intro n; simp [enumF]
  | cons r rs ih =>
    intro n
    rw [enumF]
    cases hr : rowToTrade cols n r with
    | none =>
      simp only [List.filterMap_cons, hr]
      refine ⟨(ih (n + 1)).1,
        fun t ht => le_trans (Nat.le_succ n) ((ih (n + 1)).2.1 t ht), ?_⟩
      intro t ht
      obtain ⟨row, hrow, hsome⟩ := (ih (n + 1)).2.2 t ht
      exact ⟨row, List.mem_cons_of_mem _ hrow, hsome⟩
    | some t0 =>
      have hid : t0.id = n := id_of_rowToTrade hr
      simp only [List.filterMap_cons, hr]
      refine ⟨?_, ?_, ?_⟩
      · refine List.Pairwise.cons ?_ (ih (n + 1)).1
        intro b hb
        have hb1 := (ih (n + 1)).2.1 b hb
        omega
      · intro t ht
        rcases List.mem_cons.1 ht with h | h
        · rw [h, hid]
        · exact le_trans (Nat.le_succ n) ((ih (n + 1)).2.1 t h)
      · intro t ht
        rcases List.mem_cons.1 ht with h | h
        · subst h
          exact ⟨r, by rw [hid]; exact List.mem_cons_self _ _, by rw [hid]; exact hr⟩
        · obtain ⟨row, hrow, hsome⟩ := (ih (n + 1)).2.2 t h
          exact ⟨row, List.mem_cons_of_mem _ hrow, hsome⟩

theorem sum_map_add_distrib {α : Type} {M : Type} [AddCommMonoid M]
    (g h : α → M) (l : List α) :
    (l.map (fun a => g a + h a)).sum = (l.map g).sum + (l.map h).sum := by
  induction l with
  | nil => simp
  | cons x xs ih =>
    rw [List.map_cons, List.map_cons, List.map_cons, List.sum_cons, List.sum_cons,
      List.sum_cons, ih, add_add_add_comm]

theorem sum_map_ite_zero {M : Type} [AddCommMonoid M] (key : String) (c : M) :
    ∀ ks : List String, ks.Nodup → key ∈ ks →
      (ks.map (fun s => if key = s then c else 0)).sum = c := by
  intro ks
  induction ks with
  | nil => simp
  | cons k t ih =>
    intro hnd hmem
    obtain ⟨hk, hndt⟩ := List.nodup_cons.1 hnd
    rcases List.mem_cons.1 hmem with h | h
    · subst h
      rw [List.map_cons, List.sum_cons, if_pos rfl]
      have hzero : (t.map (fun s => if key = s then c else 0)).sum = 0 := by
        apply List.sum_eq_zero
        intro x hx
        obtain ⟨s, hs, hxeq⟩ := List.mem_map.1 hx
        rw [← hxeq, if_neg]
        intro hcon
        exact hk (hcon ▸ hs)
      rw [hzero, add_zero]
    · have hkey : key ≠ k := fun hcon => hk (hcon ▸ h)
      rw [List.map_cons, List.sum_cons, if_neg hkey, zero_add]
      exact ih hndt h

/-- Fiberwise sums over a covering nodup key list add up to the total. -/
theorem sum_map_fiber {M : Type} [AddCommMonoid M] (f : Trade → M) (ks : List String) :
    ∀ l : List Trade, ks.Nodup → (∀ t ∈ l, t.symbol ∈ ks) →
      (ks.map (fun sym => ((l.filter (fun t => t.symbol = sym)).map f).sum)).sum
        = (l.map f).sum := by
  intro l
  induction l with
  | nil => intro _ _; simp
  | cons x xs ih =>
    intro hnd hcov
    have hx : x.symbol ∈ ks := hcov x (List.mem_cons_self _ _)
    have hstep : ∀ sym ∈ ks,
        (((x :: xs).filter (fun t => t.symbol = sym)).map f).sum
          = (if x.symbol = sym then f x else 0)
            + ((xs.filter (fun t => t.symbol = sym)).map f).sum := by
      intro sym _
      by_cases h : x.symbol = sym
      · simp [List.filter_cons, h]
      · simp [List.filter_cons, h]
    rw [List.map_congr_left hstep, sum_map_add_distrib,
      sum_map_ite_zero x.symbol (f x) ks hnd hx, List.map_cons, List.sum_cons,
      ih hnd (fun t ht => hcov t (List.mem_cons_of_mem _ ht))]

theorem sum_map_ones {α : Type} (l : List α) : (l.map (fun _ => (1 : Nat))).sum = l.length := by
  induction l with
  | nil => rfl
  | cons x xs ih => simp [ih, Nat.add_comm]

/-- The per-symbol stats of any frame partition it: symbol coverage, and
count and profit sums. -/
theorem symbolStats_partition_list (s : List Trade) :
    (∀ t ∈ s, ∃ st, (t.symbol, st) ∈ symbolStats s) ∧
    ((symbolStats s).map (fun p => p.2.trades)).sum = s.length ∧
    ((symbolStats s).map (fun p => p.2.profit)).sum = (profitsOf s).sum := by
  have hnd : (uniqueSymbols s).Nodup := List.nodup_dedup _
  have hcov : ∀ t ∈ s, t.symbol ∈ uniqueSymbols s :=
    fun t ht => List.mem_dedup.2 (List.mem_map_of_mem _ ht)
  refine ⟨?_, ?_, ?_⟩
  · intro t ht
    exact ⟨_, List.mem_map.2 ⟨t.symbol, hcov t ht, rfl⟩⟩
  · have h1 : (symbolStats s).map (fun p => p.2.trades)
        = (uniqueSymbols s).map (fun sym => ((s.filter (fun t => t.symbol = sym)).map
            (fun _ => (1 : Nat))).sum) := by
      rw [symbolStats, List.map_map]
      exact List.map_congr_left (fun sym _ => (sum_map_ones _).symm)
    rw [h1, sum_map_fiber (fun _ => (1 : Nat)) (uniqueSymbols s) s hnd hcov, sum_map_ones]
  · have h1 : (symbolStats s).map (fun p => p.2.profit)
        = (uniqueSymbols s).map (fun sym => ((s.filter (fun t => t.symbol = sym)).map
            Trade.profit_usd).sum) := by
      rw [symbolStats, List.map_map]
      rfl
    rw [h1, sum_map_fiber Trade.profit_usd (uniqueSymbols s) s hnd hcov]
    rfl

/-! ## The claims -/

/-- C1: the spec promises that `compute([])` returns a zero-valued report
and raises no exception; the code instead raises — `pd.DataFrame([])` is a
frame with no columns, so the column access `df['open_time']` at line 18
raises `KeyError` before any guard runs (while every later step carries an
explicit `len(df) > 0` guard, showing the zero-valued report was the
intent).  This theorem evaluates the embedded code at the failing input. -/
theorem compute_empty_raises :
    calculate_all_analytics ([] : List Trade) = Except.error "KeyError: open_time" := rfl

/-- C2: on the five trades with profits [100, -50, 200, -50, 0] in
chronological order, compute returns total_trades=5, winning_trades=2,
losing_trades=2, break_even=1, total_profit=200, win_rate=40,
equity_curve=[100, 50, 250, 200, 200] and max_drawdown=-50. -/
theorem scenario_basic_win_loss :
    ∃ a, calculate_all_analytics c2trades = Except.ok a ∧
      a.total_trades = 5 ∧ a.winning_trades = 2 ∧ a.losing_trades = 2 ∧
      a.break_even = 1 ∧ a.total_profit = 200 ∧ a.win_rate = 40 ∧
      a.equity_curve = [100, 50, 250, 200, 200] ∧ a.max_drawdown = -50 := by
  have hs : sortTrades c2trades = c2trades := by decide
  refine ⟨_, rfl, by decide, by decide, by decide, by decide, ?_, ?_, ?_, ?_⟩
  · rw [buildAnalytics_total_profit, hs]
    norm_num [profitsOf, c2trades]
  · rw [buildAnalytics_win_rate, hs]
    norm_num [show (winsOf c2trades).length = 2 from by decide,
      show c2trades.length = 5 from by decide]
  · rw [buildAnalytics_equity_curve, hs]
    norm_num [equityOf, profitsOf, c2trades, cumsum, cumsumFrom]
  · rw [buildAnalytics_max_drawdown, hs]
    norm_num [drawdownOf, equityOf, profitsOf, c2trades, cumsum, cumsumFrom,
      cummax, cummaxFrom, minOf, List.zipWith, List.foldl]

/-- C3: for every input trade sequence, the report's winning, losing and
break-even counts partition the total: trades are counted by the sign of
`profit_usd` (> 0, < 0, == 0), which is exhaustive and mutually
exclusive. -/
theorem counts_partition_total (trades : List Trade) :
    (buildAnalytics trades).winning_trades + (buildAnalytics trades).losing_trades
      + (buildAnalytics trades).break_even = (buildAnalytics trades).total_trades := by
  rw [buildAnalytics_winning, buildAnalytics_losing, buildAnalytics_breakEven,
    buildAnalytics_total]
  exact filter_partition (sortTrades trades)

/-- C4: for every non-empty input, every value of the drawdown series
(cumulative P&L minus its running maximum, chronological order) is ≤ 0,
`max_drawdown` is the minimum of that series (it belongs to the series and
bounds it below), and `current_drawdown` is the series' last value. -/
theorem drawdown_series_properties (trades : List Trade) (h : trades ≠ []) :
    (∀ x ∈ drawdownOf (sortTrades trades), x ≤ 0) ∧
    (buildAnalytics trades).max_drawdown ∈ drawdownOf (sortTrades trades) ∧
    (∀ x ∈ drawdownOf (sortTrades trades), (buildAnalytics trades).max_drawdown ≤ x) ∧
    (drawdownOf (sortTrades trades)).getLast? = some (buildAnalytics trades).current_drawdown := by
  have hnn : drawdownOf (sortTrades trades) ≠ [] := by
    have hlen : (drawdownOf (sortTrades trades)).length = trades.length := by
      rw [length_drawdownOf, length_sortTrades]
    intro hcon
    exact h (List.length_eq_zero.1 (by rw [← hlen, hcon, List.length_nil]))
  refine ⟨?_, ?_, ?_, ?_⟩
  · exact fun x hx => zip_cummax_nonpos _ x hx
  · rw [buildAnalytics_max_drawdown]
    exact minOf_mem hnn
  · rw [buildAnalytics_max_drawdown]
    exact fun x hx => minOf_le x hx
  · rw [buildAnalytics_current_drawdown]
    exact getLast?_of_ne_nil hnn 0

/-- Witness for C4 at the one-trade input with profit 5. -/
theorem drawdown_series_properties_witness :
    ([({ id := 0, open_time := 1, profit_usd := 5 } : Trade)] ≠ []) ∧
    ((∀ x ∈ drawdownOf (sortTrades [({ id := 0, open_time := 1, profit_usd := 5 } : Trade)]), x ≤ 0) ∧
     (buildAnalytics [({ id := 0, open_time := 1, profit_usd := 5 } : Trade)]).max_drawdown
       ∈ drawdownOf (sortTrades [({ id := 0, open_time := 1, profit_usd := 5 } : Trade)]) ∧
     (∀ x ∈ drawdownOf (sortTrades [({ id := 0, open_time := 1, profit_usd := 5 } : Trade)]),
       (buildAnalytics [({ id := 0, open_time := 1, profit_usd := 5 } : Trade)]).max_drawdown ≤ x) ∧
     (drawdownOf (sortTrades [({ id := 0, open_time := 1, profit_usd := 5 } : Trade)])).getLast?
       = some (buildAnalytics [({ id := 0, open_time := 1, profit_usd := 5 } : Trade)]).current_drawdown) :=
  ⟨by decide, drawdown_series_properties _ (by decide)⟩

/-- C5 counterexample: `df.sort_values('open_time')` breaks ties by input
position, not by id — for two trades sharing an open time, the two input
permutations produce different equity curves, so the claimed
permutation-invariance (via an id tie-break) fails. -/
theorem tie_order_changes_equity_curve :
    ([c5tieB, c5tieA].Perm [c5tieA, c5tieB]) ∧
    (buildAnalytics [c5tieB, c5tieA]).equity_curve
      ≠ (buildAnalytics [c5tieA, c5tieB]).equity_curve := by
  refine ⟨List.Perm.swap _ _ _, ?_⟩
  have h1 : (buildAnalytics [c5tieB, c5tieA]).equity_curve = [-50, 50] := by
    rw [buildAnalytics_equity_curve,
      show sortTrades [c5tieB, c5tieA] = [c5tieB, c5tieA] from by decide]
    norm_num [equityOf, profitsOf, c5tieA, c5tieB, cumsum, cumsumFrom]
  have h2 : (buildAnalytics [c5tieA, c5tieB]).equity_curve = [100, 50] := by
    rw [buildAnalytics_equity_curve,
      show sortTrades [c5tieA, c5tieB] = [c5tieA, c5tieB] from by decide]
    norm_num [equityOf, profitsOf, c5tieA, c5tieB, cumsum, cumsumFrom]
  rw [h1, h2]
  intro hcon
  rw [List.cons.injEq] at hcon
  norm_num at hcon

/-- C5 amended: the time-series outputs are computed over the trades
sorted by open_time ascending with ties keeping their input order (no id
tie-break exists in the code); hence two inputs that are permutations of
the same trades with pairwise-distinct open times sort identically and
produce identical time-series outputs. -/
theorem time_series_determined_by_sort (l1 l2 : List Trade)
    (hperm : l1.Perm l2) (hnd : (l1.map Trade.open_time).Nodup) :
    sortTrades l1 = sortTrades l2 ∧
    (buildAnalytics l1).equity_curve = (buildAnalytics l2).equity_curve ∧
    (buildAnalytics l1).equity_dates = (buildAnalytics l2).equity_dates ∧
    (buildAnalytics l1).daily_stats = (buildAnalytics l2).daily_stats ∧
    (buildAnalytics l1).monthly_stats = (buildAnalytics l2).monthly_stats := by
  have hp : (sortTrades l1).Perm (sortTrades l2) :=
    ((l1.perm_insertionSort ordOT).trans hperm).trans (l2.perm_insertionSort ordOT).symm
  have hnd1 : ((sortTrades l1).map Trade.open_time).Nodup :=
    (((l1.perm_insertionSort ordOT).map Trade.open_time).nodup_iff).2 hnd
  have hs : sortTrades l1 = sortTrades l2 :=
    eq_of_perm_sorted_nodup_times _ _ hp (sorted_sortTrades l1) (sorted_sortTrades l2) hnd1
  refine ⟨hs, ?_, ?_, ?_, ?_⟩
  · rw [buildAnalytics_equity_curve, buildAnalytics_equity_curve, hs]
  · rw [buildAnalytics_equity_dates, buildAnalytics_equity_dates, hs]
  · rw [buildAnalytics_daily_stats, buildAnalytics_daily_stats, hs]
  · rw [buildAnalytics_monthly_stats, buildAnalytics_monthly_stats, hs]

/-- Witness for C5's amended theorem at a concrete two-trade permutation
with distinct open times. -/
theorem time_series_determined_by_sort_witness :
    (([c5wB, c5wA].Perm [c5wA, c5wB]) ∧ (([c5wB, c5wA].map Trade.open_time).Nodup)) ∧
    (sortTrades [c5wB, c5wA] = sortTrades [c5wA, c5wB] ∧
     (buildAnalytics [c5wB, c5wA]).equity_curve = (buildAnalytics [c5wA, c5wB]).equity_curve ∧
     (buildAnalytics [c5wB, c5wA]).equity_dates = (buildAnalytics [c5wA, c5wB]).equity_dates ∧
     (buildAnalytics [c5wB, c5wA]).daily_stats = (buildAnalytics [c5wA, c5wB]).daily_stats ∧
     (buildAnalytics [c5wB, c5wA]).monthly_stats = (buildAnalytics [c5wA, c5wB]).monthly_stats) :=
  ⟨⟨by decide, by decide⟩,
    time_series_determined_by_sort [c5wB, c5wA] [c5wA, c5wB] (by decide) (by decide)⟩

/-- C6: for every non-empty input with no negative-profit trade, the
profit factor is floored to 0 (no losses means `losses > 0` is false), and
the payoff ratio — whose loss denominator floors at 1 — collapses to the
mean of the positive profits, or 0 when there are no winners either. -/
theorem no_losses_floors (trades : List Trade)
    (hne : trades ≠ []) (hnl : ∀ t ∈ trades, ¬ t.profit_usd < 0) :
    (buildAnalytics trades).profit_factor = 0 ∧
    (buildAnalytics trades).payoff_ratio =
      (if 0 < (winsOf (sortTrades trades)).length
       then (profitsOf (winsOf (sortTrades trades))).sum / ((winsOf (sortTrades trades)).length : ℚ)
       else 0) := by
  have hl : lossesOf (sortTrades trades) = [] := by
    simp only [lossesOf, List.filter_eq_nil_iff, decide_eq_true_eq]
    exact fun t ht => hnl t (mem_sortTrades.1 ht)
  constructor
  · rw [buildAnalytics_profit_factor, hl]
    norm_num [profitsOf]
  · rw [buildAnalytics_payoff_ratio, hl]
    norm_num [profitsOf]

/-- Witness for C6 at the one-winner input. -/
theorem no_losses_floors_witness :
    (([c6w] : List Trade) ≠ [] ∧ ∀ t ∈ [c6w], ¬ t.profit_usd < 0) ∧
    ((buildAnalytics [c6w]).profit_factor = 0 ∧
     (buildAnalytics [c6w]).payoff_ratio =
       (if 0 < (winsOf (sortTrades [c6w])).length
        then (profitsOf (winsOf (sortTrades [c6w]))).sum / ((winsOf (sortTrades [c6w])).length : ℚ)
        else 0)) :=
  ⟨⟨by decide, by decide⟩, no_losses_floors [c6w] (by decide) (by decide)⟩

/-- C7: normalize fails (with a `ValueError` the spec calls `ParseError`)
iff the extension is unsupported or, after aliasing, some required column
is unresolved; the missing-columns error reports exactly the unresolved
required columns and the columns actually found. -/
theorem parse_error_iff_missing_or_unsupported (ext : String) (tbl : Table) :
    ((∃ e, load_trades_from_file ext tbl = Except.error e) ↔
      (¬(ext = ".csv" ∨ ext = ".xlsx" ∨ ext = ".xls")
        ∨ ∃ c ∈ required_columns, c ∉ renamedCols tbl)) ∧
    (∀ m f, load_trades_from_file ext tbl = Except.error (ParseError.missingColumns m f) →
      f = renamedCols tbl ∧ ∀ c, (c ∈ m ↔ c ∈ required_columns ∧ c ∉ renamedCols tbl)) ∧
    (∀ e2, load_trades_from_file ext tbl = Except.error (ParseError.unsupportedFormat e2) →
      e2 = ext ∧ ¬(ext = ".csv" ∨ ext = ".xlsx" ∨ ext = ".xls")) := by
  by_cases hext : ext = ".csv" ∨ ext = ".xlsx" ∨ ext = ".xls"
  · by_cases hmiss : (missingCols tbl).isEmpty = true
    · have hload : load_trades_from_file ext tbl
          = Except.ok (parseRows (renamedCols tbl) tbl.rows) := by
        simp [load_trades_from_file, hext, hmiss]
      refine ⟨?_, ?_, ?_⟩
      · rw [hload]
        constructor
        · rintro ⟨e, he⟩
          exact Except.noConfusion he
        · rintro (h | ⟨c, hc, hnc⟩)
          · exact absurd hext h
          · exact absurd (missingCols_isEmpty_iff.1 hmiss c hc) hnc
      · intro m f hmf
        rw [hload] at hmf
        exact Except.noConfusion hmf
      · intro e2 he
        rw [hload] at he
        exact Except.noConfusion he
    · have hload : load_trades_from_file ext tbl
          = Except.error (ParseError.missingColumns (missingCols tbl) (renamedCols tbl)) := by
        simp [load_trades_from_file, hext, hmiss]
      refine ⟨?_, ?_, ?_⟩
      · rw [hload]
        refine ⟨fun _ => Or.inr ?_, fun _ => ⟨_, rfl⟩⟩
        have hne : missingCols tbl ≠ [] := by
          intro hcon
          exact hmiss (by rw [hcon]; rfl)
        obtain ⟨c, hc⟩ := List.exists_mem_of_ne_nil _ hne
        obtain ⟨h1, h2⟩ := mem_missingCols.1 hc
        exact ⟨c, h1, h2⟩
      · intro m f hmf
        rw [hload] at hmf
        have hinj := Except.error.inj hmf
        injection hinj with hm hf
        subst hm
        subst hf
        exact ⟨rfl, fun c => mem_missingCols⟩
      · intro e2 he
        rw [hload] at he
        have hinj := Except.error.inj he
        exact ParseError.noConfusion hinj
  · have hload : load_trades_from_file ext tbl
        = Except.error (ParseError.unsupportedFormat ext) := by
      simp [load_trades_from_file, hext]
    refine ⟨?_, ?_, ?_⟩
    · rw [hload]
      exact ⟨fun _ => Or.inl hext, fun _ => ⟨_, rfl⟩⟩
    · intro m f hmf
      rw [hload] at hmf
      have hinj := Except.error.inj hmf
      exact ParseError.noConfusion hinj
    · intro e2 he
      rw [hload] at he
      have hinj := Except.error.inj he
      injection hinj with h1
      exact ⟨h1.symm, hext⟩

/-- C8: with a supported extension and all required columns resolved,
normalize returns (never raises): its result is the row loop's output, and
a row survives that loop exactly when its symbol is non-null, its order
type is BUY/SELL case-insensitively, and its numeric and timestamp fields
coerce — a row failing any of these is dropped without aborting the
batch. -/
theorem rows_never_fatal (ext : String) (tbl : Table)
    (hext : ext = ".csv" ∨ ext = ".xlsx" ∨ ext = ".xls")
    (hreq : ∀ c ∈ required_columns, c ∈ renamedCols tbl) :
    load_trades_from_file ext tbl = Except.ok (parseRows (renamedCols tbl) tbl.rows) ∧
    ∀ idx row, (rowToTrade (renamedCols tbl) idx row).isSome = keptRow (renamedCols tbl) row := by
  have hmiss : (missingCols tbl).isEmpty = true := missingCols_isEmpty_iff.2 hreq
  exact ⟨by simp [load_trades_from_file, hext, hmiss],
    fun idx row => rowToTrade_isSome _ idx row⟩

/-- Witness for C8 at a concrete two-row frame (one BUY row, one balance
row). -/
theorem rows_never_fatal_witness :
    ((".csv" = ".csv" ∨ ".csv" = ".xlsx" ∨ ".csv" = ".xls") ∧
      (∀ c ∈ required_columns, c ∈ renamedCols c8tbl)) ∧
    (load_trades_from_file ".csv" c8tbl
        = Except.ok (parseRows (renamedCols c8tbl) c8tbl.rows) ∧
      ∀ idx row, (rowToTrade (renamedCols c8tbl) idx row).isSome
        = keptRow (renamedCols c8tbl) row) :=
  ⟨⟨Or.inl rfl, by decide⟩, rows_never_fatal ".csv" c8tbl (Or.inl rfl) (by decide)⟩

/-- C9 counterexample: on a frame whose middle row is a non-trade row, the
two returned trades carry ids [0, 2] — the frame positions — not the
claimed sequential post-filtering ids ([0, 1] zero-based or [1, 2]
one-based). -/
theorem ids_keep_frame_gaps :
    (∃ ts, load_trades_from_file ".csv" c9tbl = Except.ok ts ∧ ts.map Trade.id = [0, 2]) ∧
    ([0, 2] : List Nat) ≠ [0, 1] ∧ ([0, 2] : List Nat) ≠ [1, 2] := by
  refine ⟨⟨parseRows (renamedCols c9tbl) c9tbl.rows, ?_, ?_⟩, by decide, by decide⟩
  · simp [load_trades_from_file, show (missingCols c9tbl).isEmpty = true from by decide]
  · decide

/-- C9 amended: the assigned ids are the original frame row positions of
the kept rows — deterministic and strictly increasing, but with gaps where
non-trade or uncoercible rows were skipped, not renumbered sequentially. -/
theorem ids_are_frame_positions (ext : String) (tbl : Table)
    (hext : ext = ".csv" ∨ ext = ".xlsx" ∨ ext = ".xls")
    (hreq : ∀ c ∈ required_columns, c ∈ renamedCols tbl) :
    ∃ ts, load_trades_from_file ext tbl = Except.ok ts ∧
      (ts.map Trade.id).Pairwise (fun a b => a < b) ∧
      ∀ t ∈ ts, ∃ row, (t.id, row) ∈ enumF 0 tbl.rows ∧
        rowToTrade (renamedCols tbl) t.id row = some t := by
  have hmiss : (missingCols tbl).isEmpty = true := missingCols_isEmpty_iff.2 hreq
  refine ⟨parseRows (renamedCols tbl) tbl.rows,
    by simp [load_trades_from_file, hext, hmiss], ?_, ?_⟩
  · rw [parseRows, List.pairwise_map]
    exact (enumF_filterMap_ids (renamedCols tbl) tbl.rows 0).1
  · rw [parseRows]
    exact (enumF_filterMap_ids (renamedCols tbl) tbl.rows 0).2.2

/-- Witness for C9's amended theorem at the gap frame. -/
theorem ids_are_frame_positions_witness :
    ((".csv" = ".csv" ∨ ".csv" = ".xlsx" ∨ ".csv" = ".xls") ∧
      (∀ c ∈ required_columns, c ∈ renamedCols c9tbl)) ∧
    (∃ ts, load_trades_from_file ".csv" c9tbl = Except.ok ts ∧
      (ts.map Trade.id).Pairwise (fun a b => a < b) ∧
      ∀ t ∈ ts, ∃ row, (t.id, row) ∈ enumF 0 c9tbl.rows ∧
        rowToTrade (renamedCols c9tbl) t.id row = some t) :=
  ⟨⟨Or.inl rfl, by decide⟩, ids_are_frame_positions ".csv" c9tbl (Or.inl rfl) (by decide)⟩

/-- C10: the per-symbol stats partition the trades — every trade's symbol
is a key of symbol_stats, the per-symbol trade counts sum to total_trades,
and the per-symbol profits sum to total_profit. -/
theorem symbol_stats_partition (trades : List Trade) (hne : trades ≠ []) :
    (∀ t ∈ trades, ∃ st, (t.symbol, st) ∈ (buildAnalytics trades).symbol_stats) ∧
    ((buildAnalytics trades).symbol_stats.map (fun p => p.2.trades)).sum
      = (buildAnalytics trades).total_trades ∧
    ((buildAnalytics trades).symbol_stats.map (fun p => p.2.profit)).sum
      = (buildAnalytics trades).total_profit := by
  rw [buildAnalytics_symbol_stats, buildAnalytics_total, buildAnalytics_total_profit]
  obtain ⟨hmem, hcount, hprofit⟩ := symbolStats_partition_list (sortTrades trades)
  exact ⟨fun t ht => hmem t (mem_sortTrades.2 ht), hcount, hprofit⟩

/-- Witness for C10 at a one-trade input. -/
theorem symbol_stats_partition_witness :
    (([c10w] : List Trade) ≠ []) ∧
    ((∀ t ∈ [c10w], ∃ st, (t.symbol, st) ∈ (buildAnalytics [c10w]).symbol_stats) ∧
     ((buildAnalytics [c10w]).symbol_stats.map (fun p => p.2.trades)).sum
       = (buildAnalytics [c10w]).total_trades ∧
     ((buildAnalytics [c10w]).symbol_stats.map (fun p => p.2.profit)).sum
       = (buildAnalytics [c10w]).total_profit) :=
  ⟨by decide, symbol_stats_partition [c10w] (by decide)⟩

end TradingBot
